import Mathlib

/-!
Shallow embedding of the helix-deploy sources:
- `src/gateway/FastlyGateway.js` (class `FastlyGateway`)
- the Google deployer (`GoogleDeployer.js`)

JavaScript strings are modelled as `String`, JS `undefined`-able fields as
`Option`, and code that throws as `Option`/`Except` results.  The VCL text
generated by the gateway is modelled both as the literal generated string and
as the structured list of branches the string is assembled from, together with
an evaluator for the generated else-if chain.
-/

namespace FastlyGateway

/-- A deployer object as consumed by `FastlyGateway` (fields the gateway
reads: `name`, `host`, `basePath`, `urlVCL`, `customVCL`). -/
structure Deployer where
  name : String
  host : String
  basePath : String
  urlVCL : String
  customVCL : String
deriving DecidableEq, Repr

/-- The leading part of `selectBackendVCL`: declares `var.i`, draws
`randomint(0, this._deployers.length - 1)` and opens the chain with
`if (false) \x7b\x7d`.  The JS expression `this._deployers.length - 1` is a JS
number, hence `Int`. -/
def headerText (n : Nat) : String :=
  "\n      declare local var.i INTEGER;\n      set var.i = randomint(0, "
    ++ toString ((n : Int) - 1) ++ ");\n\n      if (false) \x7b\x7d"

/-- One middle branch of the generated backend-selection chain:
index `idx` (the position of the deployer in `_deployers`) and the
deployer's `name`. -/
structure MiddleBranch where
  idx : Nat
  name : String
deriving DecidableEq, Repr

/-- Renders a middle branch exactly as `selectBackendVCL` does. -/
def middleBranchText (b : MiddleBranch) : String :=
  "if(var.i <= " ++ toString b.idx ++ " && backend.F_" ++ b.name
    ++ ".healthy) \x7b\n      set req.backend = F_" ++ b.name ++ ";\n    \x7d"

/-- The list of middle branches: `this._deployers.map((deployer, i) => ...)`,
one branch per deployer, carrying the deployer's position and name. -/
def middleBranches (ds : List Deployer) : List MiddleBranch :=
  ds.enum.map (fun p => MiddleBranch.mk p.1 p.2.name)

/-- Renders the fallback branch of `selectBackendVCL` for deployer 0. -/
def fallbackText (d0 : Deployer) : String :=
  "\x7b\n      set req.backend = F_" ++ d0.name ++ ";\n      "
    ++ d0.customVCL ++ "\n    \x7d"

/-- The name selected by the fallback branch: `this._deployers[0].name`
(`none` models the TypeError a JS empty list would raise). -/
def fallbackName (ds : List Deployer) : Option String :=
  ds.head?.map Deployer.name

/-- `selectBackendVCL`: joins header, middle branches and fallback with
`" else "`.  On an empty deployer list the JS code throws
(`this._deployers[0]` is `undefined`), modelled by `none`. -/
def selectBackendVCL (ds : List Deployer) : Option String :=
  ds.head?.map (fun d0 =>
    String.intercalate " else "
      (headerText ds.length :: ((middleBranches ds).map middleBranchText
        ++ [fallbackText d0])))

/-- Evaluates the generated else-if chain of middle branches for a draw
`var.i = i` and a health state `healthy` (keyed by backend name, as the
generated `backend.F_<name>.healthy` tests are): the first branch whose guard
`var.i <= idx && backend.F_name.healthy` holds, `none` when every guard fails
(control reaches the fallback `else`). -/
def takenBranch (ds : List Deployer) (i : Nat) (healthy : String → Bool) :
    Option MiddleBranch :=
  (middleBranches ds).find? (fun b => decide (i ≤ b.idx) && healthy b.name)

/-- The backend name `set req.backend = F_<...>` assigns for draw `i`:
the leading `if (false) \x7b\x7d` selects nothing and never fires, then the
middle chain, then the fallback to deployer 0. -/
def selectedBackendName (ds : List Deployer) (i : Nat)
    (healthy : String → Bool) : Option String :=
  if false then none
  else
    match takenBranch ds i healthy with
    | some b => some b.name
    | none => fallbackName ds

end FastlyGateway

namespace FastlyGateway

/-- Concrete sample deployers used by witnesses and concrete scenarios. -/
def dA : Deployer := ⟨"A", "a.example.com", "/a", "\"/urlA\"", "# custom A"⟩

def dB : Deployer := ⟨"B", "b.example.com", "/b", "\"/urlB\"", "# custom B"⟩

def dC : Deployer := ⟨"C", "c.example.com", "/c", "\"/urlC\"", "# custom C"⟩

/-- The deployer of the single-deployer scenario. -/
def gDeployer : Deployer := ⟨"g", "g.example.com", "/", "\"/x\"", ""⟩

/-- One branch of the URL-rewrite text `setURLVCL` generates: the backend
name tested by `req.backend == F_<name>` and the `urlVCL` expression assigned
to `bereq.url` in that branch. -/
structure UrlBranch where
  backendName : String
  urlExpr : String
deriving DecidableEq, Repr

/-- Renders one URL-rewrite branch exactly as `setURLVCL` does. -/
def urlBranchText (b : UrlBranch) : String :=
  "\n      if (req.backend == F_" ++ b.backendName
    ++ ") \x7b\n        set bereq.url = " ++ b.urlExpr ++ ";\n      \x7d\n      "

/-- The per-deployer URL-rewrite branches: `this._deployers.map(...)`. -/
def urlBranches (ds : List Deployer) : List UrlBranch :=
  ds.map (fun d => UrlBranch.mk d.name d.urlVCL)

/-- `setURLVCL`: one rendered branch per deployer, joined with `"\n"`. -/
def setURLVCL (ds : List Deployer) : String :=
  String.intercalate "\n" ((urlBranches ds).map urlBranchText)

/-- A health check object as built in `deploy()` for one deployer. -/
structure Healthcheck where
  check_interval : Nat
  expected_response : Nat
  host : String
  http_version : String
  method : String
  initial : Nat
  name : String
  path : String
  threshold : Nat
  timeout : Nat
  window : Nat
deriving DecidableEq, Repr

/-- The health checks `deploy()` writes: one per deployer, named
`<name>Check`, probing `deployer.basePath + this._checkpath`. -/
def healthchecks (ds : List Deployer) (checkpath : String) : List Healthcheck :=
  ds.map (fun d =>
    { check_interval := 60000
      expected_response := 200
      host := d.host
      http_version := "1.1"
      method := "GET"
      initial := 1
      name := d.name ++ "Check"
      path := d.basePath ++ checkpath
      threshold := 1
      timeout := 5000
      window := 2 })

/-- A backend record as built in `deploy()` for one deployer. -/
structure Backend where
  hostname : String
  ssl_cert_hostname : String
  ssl_sni_hostname : String
  address : String
  override_host : String
  name : String
  healthcheck : String
  error_threshold : Nat
  first_byte_timeout : Nat
  weight : Nat
  connect_timeout : Nat
  port : Nat
  between_bytes_timeout : Nat
  shield : String
  max_conn : Nat
  use_ssl : Bool
  request_condition : String
deriving DecidableEq, Repr

/-- The backend records `deploy()` writes: one per deployer. -/
def backends (ds : List Deployer) : List Backend :=
  ds.map (fun d =>
    { hostname := d.host
      ssl_cert_hostname := d.host
      ssl_sni_hostname := d.host
      address := d.host
      override_host := d.host
      name := d.name
      healthcheck := d.name ++ "Check"
      error_threshold := 0
      first_byte_timeout := 60000
      weight := 100
      connect_timeout := 5000
      port := 443
      between_bytes_timeout := 10000
      shield := ""
      max_conn := 200
      use_ssl := true
      request_condition := "false" })

/-- A VCL snippet as written by `deploy()` via `writeSnippet`. -/
structure Snippet where
  name : String
  priority : Nat
  dynamic : Nat
  type : String
  content : String
deriving DecidableEq, Repr

/-- The content of the `logurl` snippet (a fixed string). -/
def logurlContent : String :=
  "set beresp.http.X-Backend-URL = bereq.url;\n        set beresp.http.X-Backend-Name = req.backend;"

/-- The four snippets `deploy()` writes, in writing order.  `none` models the
TypeError `selectBackendVCL` raises on an empty deployer list. -/
def deploySnippets (ds : List Deployer) : Option (List Snippet) :=
  (selectBackendVCL ds).map (fun backendVCL =>
    [ { name := "backend", priority := 10, dynamic := 0, type := "recv",
        content := backendVCL },
      { name := "missurl", priority := 10, dynamic := 0, type := "miss",
        content := setURLVCL ds },
      { name := "passurl", priority := 10, dynamic := 0, type := "miss",
        content := setURLVCL ds },
      { name := "logurl", priority := 10, dynamic := 0, type := "fetch",
        content := logurlContent } ])

/-- The Fastly client value `Fastly(this._auth, this._service)`. -/
structure FastlyClient where
  auth : String
  service : String
deriving DecidableEq, Repr

/-- The mutable fields of a `FastlyGateway` instance.  Fields the constructor
starts as `undefined` are `Option` (`_service`, `_auth`); `_fastly` starts as
`null`; `_checkpath` starts as the empty string. -/
structure GatewayState where
  _service : Option String
  _auth : Option String
  _fastly : Option FastlyClient
  _deployers : List Deployer
  _checkpath : String
deriving DecidableEq, Repr

/-- The state built by `new FastlyGateway(builder)`. -/
def mkGateway : GatewayState :=
  { _service := none, _auth := none, _fastly := none, _deployers := [],
    _checkpath := "" }

/-- JS truthiness of a possibly-`undefined` string (`!!v`): `undefined` and
`""` are falsy. -/
def jsTruthyOptStr : Option String → Bool
  | none => false
  | some s => decide (s ≠ "")

/-- `ready()`: `!!this._service && !!this._auth && !!this._checkpath`. -/
def ready (g : GatewayState) : Bool :=
  jsTruthyOptStr g._service && jsTruthyOptStr g._auth
    && decide (g._checkpath ≠ "")

/-- `init()`: constructs the client only when `ready()` holds and `_fastly`
is still `null`; otherwise leaves the state untouched. -/
def init (g : GatewayState) : GatewayState :=
  if ready g && g._fastly.isNone then
    { g with _fastly := some ⟨g._auth.getD "", g._service.getD ""⟩ }
  else g

/-- `withAuth(value)`: sets `_auth`, returns `this`. -/
def withAuth (g : GatewayState) (value : String) : GatewayState :=
  { g with _auth := some value }

/-- `withServiceID(value)`: sets `_service`, returns `this`. -/
def withServiceID (g : GatewayState) (value : String) : GatewayState :=
  { g with _service := some value }

/-- `withDeployer(value)`: appends to `_deployers`, returns `this`. -/
def withDeployer (g : GatewayState) (value : Deployer) : GatewayState :=
  { g with _deployers := g._deployers ++ [value] }

/-- `withCheckpath(value)`: sets `_checkpath`, returns `this`. -/
def withCheckpath (g : GatewayState) (value : String) : GatewayState :=
  { g with _checkpath := value }

end FastlyGateway

namespace GoogleDeployer

/-- Replaces every occurrence of `t` (JS `.replace(/t/g, r)` on a single
character) in a character list. -/
def replaceAllChar (l : List Char) (t r : Char) : List Char :=
  l.map (fun c => if c = t then r else c)

/-- Replaces only the first occurrence of `t` (JS `.replace('t', r)` with a
string pattern replaces the first match only). -/
def replaceFirstChar : List Char → Char → Char → List Char
  | [], _, _ => []
  | c :: cs, t, r => if c = t then r :: cs else c :: replaceFirstChar cs t r

/-- `get fullFunctionName()`: `` `${packageName}--${name}` `` with all `.`
replaced by `_` (global regex) and only the first `@` replaced by `_`
(string-pattern `replace`). -/
def fullFunctionName (packageName fname : String) : String :=
  ⟨replaceFirstChar (replaceAllChar (packageName ++ "--" ++ fname).data '.' '_') '@' '_'⟩

/-- The Google target configuration fields `test()` and `createFunction`
read. -/
structure GoogleTargetCfg where
  email : String
  keyFile : String
  projectID : String
  region : String
deriving DecidableEq, Repr

/-- The argument object `test()` passes to `testRequest`. -/
structure TestArgs where
  url : String
  idHeader : String
  retry404 : Nat
deriving DecidableEq, Repr

/-- `test()`: uses `this._functionURL` when truthy, else the deterministic
fallback URL, and probes with the trace header and one 404 retry. -/
def test (cfg : GoogleTargetCfg) (packageName fname : String)
    (functionURL : Option String) : TestArgs :=
  let url :=
    if FastlyGateway.jsTruthyOptStr functionURL then functionURL.getD ""
    else "https://" ++ cfg.region ++ "-" ++ cfg.projectID
      ++ ".cloudfunctions.net/" ++ fullFunctionName packageName fname
  { url := url, idHeader := "X-Cloud-Trace-Context", retry404 := 1 }

/-- gRPC error metadata: `err.metadata.internalRepr` is a map from keys to
buffer values (modelled as strings). -/
structure ErrMetadata where
  internalRepr : List (String × String)
deriving DecidableEq, Repr

/-- A JS error value as seen by `createFunction`'s catch block: a message
and possibly-absent gRPC metadata. -/
structure JsError where
  message : String
  metadata : Option ErrMetadata
deriving DecidableEq, Repr

/-- `Map.prototype.get`: `some` value or `none` for `undefined`. -/
def mapGet (m : List (String × String)) (k : String) : Option String :=
  (m.find? (fun p => p.1 = k)).map Prod.snd

/-- Which branch `createFunction` takes after the existence lookup. -/
inductive FnBranch
  | create
  | update
deriving DecidableEq, Repr

/-- The `exists` flag after the `try { getFunction } catch` block: `true`
iff the lookup returned normally, `false` on any thrown error. -/
def existsFlag (lookup : Except JsError Unit) : Bool :=
  match lookup with
  | .ok _ => true
  | .error _ => false

/-- The create-or-update decision: `if (exists) update else create`. -/
def chosenBranch (lookup : Except JsError Unit) : FnBranch :=
  if existsFlag lookup then .update else .create

/-- One `this.log.error(...)` call in the catch block. -/
inductive LogEntry
  | errorObj (e : JsError)
  | badRequest (payload : String)
  | details (payload : String)
deriving DecidableEq, Repr

/-- The outcome of the catch block: the original error re-thrown, or a
secondary TypeError raised while reading absent diagnostic fields. -/
inductive CatchOutcome
  | rethrown (e : JsError)
  | typeError
deriving DecidableEq, Repr

/-- The catch block of `createFunction`'s create/update/IAM stage: logs the
error, then logs
`err.metadata.internalRepr.get('google.rpc.badrequest-bin').toString()` and
`err.metadata.internalRepr.get('grpc-status-details-bin').toString()`, then
re-throws.  Reading `internalRepr` of absent `metadata`, or calling
`toString` on an absent map entry, raises a TypeError instead. -/
def catchHandler (e : JsError) : List LogEntry × CatchOutcome :=
  let l0 := [LogEntry.errorObj e]
  match e.metadata with
  | none => (l0, .typeError)
  | some m =>
    match mapGet m.internalRepr "google.rpc.badrequest-bin" with
    | none => (l0, .typeError)
    | some badreq =>
      let l1 := l0 ++ [LogEntry.badRequest badreq]
      match mapGet m.internalRepr "grpc-status-details-bin" with
      | none => (l1, .typeError)
      | some det => (l1 ++ [LogEntry.details det], .rethrown e)

end GoogleDeployer

namespace FastlyGateway

theorem find_middle_all_healthy (healthy : String → Bool) (i : Nat)
    (ds : List Deployer) (k : Nat)
    (hall : ∀ d ∈ ds, healthy d.name = true) (hk : k ≤ i)
    (hlen : i - k < ds.length) :
    ((ds.enumFrom k).map (fun p => MiddleBranch.mk p.1 p.2.name)).find?
        (fun b => decide (i ≤ b.idx) && healthy b.name)
      = (ds[i - k]?).map (fun d => MiddleBranch.mk i d.name) := by
  induction ds generalizing k with
  | nil => simp at hlen
  | cons d rest ih =>
    have hd : healthy d.name = true := hall d (by simp)
    by_cases hik : i ≤ k
    · have hik' : i = k := Nat.le_antisymm hik hk
      subst hik'
      simp [List.enumFrom, List.find?, hd]
    · have hklt : k < i := Nat.lt_of_not_le hik
      have h2 : i - (k + 1) < rest.length := by
        simp only [List.length_cons] at hlen; omega
      have hrec := ih (k + 1) (fun d hd => hall d (by simp [hd])) hklt h2
      have hsub : i - k = (i - (k + 1)) + 1 := by omega
      simp only [List.enumFrom, List.map_cons]
      rw [List.find?_cons_of_neg, hrec, hsub, List.getElem?_cons_succ]
      simp [hik]

theorem find_middle_none_healthy (healthy : String → Bool) (i : Nat)
    (ds : List Deployer) (k : Nat)
    (hnone : ∀ d ∈ ds, healthy d.name = false) :
    ((ds.enumFrom k).map (fun p => MiddleBranch.mk p.1 p.2.name)).find?
        (fun b => decide (i ≤ b.idx) && healthy b.name) = none := by
  induction ds generalizing k with
  | nil => simp [List.enumFrom]
  | cons d rest ih =>
    have hd : healthy d.name = false := hnone d (by simp)
    simp only [List.enumFrom, List.map_cons]
    rw [List.find?_cons_of_neg]
    · exact ih (k + 1) (fun d hd => hnone d (by simp [hd]))
    · simp [hd]

/-- C1: for a non-empty deployer list of length N, the generated
backend-selection VCL draws over `[0, N-1]` and, for every draw `i` in that
range: when all backends are healthy the else-if chain takes exactly the
branch of deployer `i` (one definite backend); when no backend is healthy no
middle guard fires and control falls through to the fallback branch, which
selects deployer 0. -/
theorem backend_selection_routes (ds : List Deployer) (hne : ds ≠ [])
    (i : Nat) (hi : i ≤ ds.length - 1) (healthy : String → Bool) :
    ((∀ d ∈ ds, healthy d.name = true) →
        (ds[i]?).isSome = true
        ∧ takenBranch ds i healthy
            = (ds[i]?).map (fun d => MiddleBranch.mk i d.name)
        ∧ selectedBackendName ds i healthy = (ds[i]?).map Deployer.name) ∧
    ((∀ d ∈ ds, healthy d.name = false) →
        takenBranch ds i healthy = none
        ∧ selectedBackendName ds i healthy = (ds[0]?).map Deployer.name
        ∧ (ds[0]?).isSome = true) := by
  have hpos : 0 < ds.length := List.length_pos.mpr hne
  have hlt : i < ds.length := by omega
  constructor
  · intro hall
    have key : takenBranch ds i healthy
        = (ds[i]?).map (fun d => MiddleBranch.mk i d.name) := by
      have := find_middle_all_healthy healthy i ds 0 hall (Nat.zero_le i)
        (by simpa using hlt)
      simpa [takenBranch, middleBranches, List.enum] using this
    refine ⟨by simp [List.getElem?_eq_getElem hlt], key, ?_⟩
    rw [List.getElem?_eq_getElem hlt] at key ⊢
    simp [selectedBackendName, key]
  · intro hnone
    have key : takenBranch ds i healthy = none := by
      have := find_middle_none_healthy healthy i ds 0 hnone
      simpa [takenBranch, middleBranches, List.enum] using this
    refine ⟨key, ?_, by simp [List.getElem?_eq_getElem hpos]⟩
    rw [List.getElem?_eq_getElem hpos]
    simp [selectedBackendName, key, fallbackName, List.head?_eq_getElem?,
      List.getElem?_eq_getElem hpos]

/-- Witness for C1 at the concrete list `[dA, dB]` and draw `i = 1`:
all-healthy routes the draw to branch 1 (backend `B`); none-healthy falls
through to the fallback selecting `A` (deployer 0). -/
theorem backend_selection_routes_witness :
    (takenBranch [dA, dB] 1 (fun _ => true) = some ⟨1, "B"⟩
      ∧ selectedBackendName [dA, dB] 1 (fun _ => true) = some "B")
    ∧ (takenBranch [dA, dB] 1 (fun _ => false) = none
      ∧ selectedBackendName [dA, dB] 1 (fun _ => false) = some "A") := by
  have h := backend_selection_routes [dA, dB] (by decide) 1 (by decide)
  have h1 := (h (fun _ => true)).1 (fun d _ => rfl)
  have h2 := (h (fun _ => false)).2 (fun d _ => rfl)
  exact ⟨⟨h1.2.1.trans (by decide), h1.2.2.trans (by decide)⟩,
    ⟨h2.1, h2.2.1.trans (by decide)⟩⟩

end FastlyGateway

namespace GoogleDeployer

theorem mem_replaceFirstChar {c : Char} {l : List Char} {t r : Char}
    (h : c ∈ replaceFirstChar l t r) : c ∈ l ∨ c = r := by
  induction l with
  | nil => simp [replaceFirstChar] at h
  | cons a as ih =>
    by_cases hat : a = t
    · rw [replaceFirstChar, if_pos hat] at h
      rcases List.mem_cons.mp h with h | h
      · exact Or.inr h
      · exact Or.inl (List.mem_cons_of_mem a h)
    · rw [replaceFirstChar, if_neg hat] at h
      rcases List.mem_cons.mp h with h | h
      · exact Or.inl (h ▸ List.mem_cons_self a as)
      · rcases ih h with h | h
        · exact Or.inl (List.mem_cons_of_mem a h)
        · exact Or.inr h

theorem not_mem_replaceAllChar {t r : Char} (hne : t ≠ r) (l : List Char) :
    t ∉ replaceAllChar l t r := by
  intro h
  rw [replaceAllChar, List.mem_map] at h
  obtain ⟨c, _, hc⟩ := h
  by_cases hct : c = t
  · rw [if_pos hct] at hc
    exact hne hc.symm
  · rw [if_neg hct] at hc
    exact hct hc

theorem count_replaceAllChar {a t r : Char} (hat : a ≠ t) (har : a ≠ r)
    (l : List Char) : (replaceAllChar l t r).count a = l.count a := by
  induction l with
  | nil => rfl
  | cons c cs ih =>
    simp only [replaceAllChar, List.map_cons, List.count_cons] at ih ⊢
    by_cases hct : c = t
    · subst hct
      simp [Ne.symm har, Ne.symm hat, ih]
    · simp [ih, hct]

theorem not_mem_replaceFirstChar_of_count_le_one {t r : Char} (hne : t ≠ r)
    (l : List Char) (hc : l.count t ≤ 1) : t ∉ replaceFirstChar l t r := by
  induction l with
  | nil => simp [replaceFirstChar]
  | cons c cs ih =>
    by_cases hct : c = t
    · subst hct
      rw [replaceFirstChar, if_pos rfl]
      have hcs : cs.count c = 0 := by
        rw [List.count_cons_self] at hc; omega
      intro h
      rcases List.mem_cons.mp h with h | h
      · exact hne h
      · exact absurd h (List.count_eq_zero.mp hcs)
    · rw [replaceFirstChar, if_neg hct]
      have hc' : cs.count t ≤ 1 := by
        rw [List.count_cons_of_ne (fun h => hct h.symm)] at hc
        exact hc
      intro h
      rcases List.mem_cons.mp h with h | h
      · exact hct h.symm
      · exact ih hc' h

/-- C2 counterexample: for `packageName = "@a@b"` and `name = "c"` the
derived name `fullFunctionName` is `"_a@b--c"`, which still contains `@`
(the JS string-pattern `replace` substitutes only the first occurrence), so
the claim that the result never contains `@` is false. -/
theorem full_function_name_at_counterexample :
    '@' ∈ (fullFunctionName "@a@b" "c").data ∧
    fullFunctionName "@a@b" "c" = "_a@b--c" := by decide

/-- C2 (amended): for every `packageName` and `name`, the derived name
contains no `.`; and it contains no `@` provided the combined string
`{packageName}--{name}` contains at most one `@` (only the first `@` is
replaced). -/
theorem full_function_name_chars (packageName fname : String) :
    '.' ∉ (fullFunctionName packageName fname).data
    ∧ ((packageName ++ "--" ++ fname).data.count '@' ≤ 1 →
        '@' ∉ (fullFunctionName packageName fname).data) := by
  constructor
  · intro hmem
    rcases mem_replaceFirstChar hmem with h | h
    · exact not_mem_replaceAllChar (by decide) _ h
    · exact absurd h (by decide)
  · intro hcount hmem
    have h1 : (replaceAllChar (packageName ++ "--" ++ fname).data '.' '_').count '@'
        ≤ 1 := by
      rw [count_replaceAllChar (by decide) (by decide)]
      exact hcount
    exact not_mem_replaceFirstChar_of_count_le_one (by decide) _ h1 hmem

/-- Witness for the amended C2 at `packageName = "@a.b"`, `name = "c"`. -/
theorem full_function_name_chars_witness :
    '.' ∉ (fullFunctionName "@a.b" "c").data
    ∧ '@' ∉ (fullFunctionName "@a.b" "c").data := by
  have h := full_function_name_chars "@a.b" "c"
  exact ⟨h.1, h.2 (by decide)⟩

/-- C5: whenever the existence lookup (`getFunction`) throws — for any error
value — the `exists` flag stays `false` and `createFunction` proceeds to the
create branch, not the update branch. -/
theorem lookup_failure_takes_create_branch (e : JsError) :
    chosenBranch (Except.error e) = FnBranch.create := rfl

/-- Witness for C5 at a concrete not-found error. -/
theorem lookup_failure_takes_create_branch_witness :
    chosenBranch (Except.error ⟨"5 NOT_FOUND", none⟩) = FnBranch.create :=
  lookup_failure_takes_create_branch ⟨"5 NOT_FOUND", none⟩

/-- C8: when `_functionURL` is unset, `test()` probes the deterministic
fallback URL `https://{region}-{projectID}.cloudfunctions.net/{fullFunctionName}`
with trace header `X-Cloud-Trace-Context` and one retry allowed on 404. -/
theorem test_fallback_url (cfg : GoogleTargetCfg) (packageName fname : String) :
    test cfg packageName fname none
      = { url := "https://" ++ cfg.region ++ "-" ++ cfg.projectID
            ++ ".cloudfunctions.net/" ++ fullFunctionName packageName fname,
          idHeader := "X-Cloud-Trace-Context", retry404 := 1 } := rfl

/-- Witness for C8 at a concrete configuration. -/
theorem test_fallback_url_witness :
    test ⟨"e@example.com", "key.json", "proj", "us-east1"⟩ "@adobe/helix" "svc"
        none
      = { url := "https://us-east1-proj.cloudfunctions.net/_adobe/helix--svc",
          idHeader := "X-Cloud-Trace-Context", retry404 := 1 } := by
  rw [test_fallback_url ⟨"e@example.com", "key.json", "proj", "us-east1"⟩
    "@adobe/helix" "svc"]
  decide

/-- C9 counterexample: for an error carrying no gRPC `metadata`, the catch
block's unchecked read `err.metadata.internalRepr` raises a TypeError, so the
original error is NOT re-raised — the claim that every error is re-raised
after diagnostics extraction is false. -/
theorem catch_handler_counterexample :
    (catchHandler ⟨"boom", none⟩).2 = CatchOutcome.typeError
    ∧ (catchHandler ⟨"boom", none⟩).2 ≠ CatchOutcome.rethrown ⟨"boom", none⟩ :=
  ⟨rfl, by decide⟩

/-- C9 (amended): for every error whose `metadata.internalRepr` carries both
diagnostic entries (`google.rpc.badrequest-bin` and
`grpc-status-details-bin`), the catch block logs the error and both extracted
diagnostics and re-raises the same error; errors lacking them instead raise a
secondary TypeError during extraction. -/
theorem catch_handler_rethrows (e : JsError) (m : ErrMetadata)
    (badreq det : String) (hm : e.metadata = some m)
    (hb : mapGet m.internalRepr "google.rpc.badrequest-bin" = some badreq)
    (hd : mapGet m.internalRepr "grpc-status-details-bin" = some det) :
    catchHandler e
      = ([.errorObj e, .badRequest badreq, .details det], .rethrown e) := by
  simp [catchHandler, hm, hb, hd]

/-- Witness for the amended C9 at a concrete error with both entries. -/
theorem catch_handler_rethrows_witness :
    catchHandler ⟨"rpc failed", some ⟨[("google.rpc.badrequest-bin", "BR"),
        ("grpc-status-details-bin", "DET")]⟩⟩
      = ([.errorObj ⟨"rpc failed", some ⟨[("google.rpc.badrequest-bin", "BR"),
            ("grpc-status-details-bin", "DET")]⟩⟩,
          .badRequest "BR", .details "DET"],
         .rethrown ⟨"rpc failed", some ⟨[("google.rpc.badrequest-bin", "BR"),
            ("grpc-status-details-bin", "DET")]⟩⟩) :=
  catch_handler_rethrows _ _ "BR" "DET" rfl (by decide) (by decide)

end GoogleDeployer

namespace FastlyGateway

/-- C6: for every non-empty deployer list, `setURLVCL` generates exactly one
`if (req.backend == F_X)` branch per deployer, branch backend-names in 1:1
correspondence with the deployer names, each branch assigning that deployer's
`urlVCL` expression to `bereq.url`. -/
theorem url_vcl_branches (ds : List Deployer) (hne : ds ≠ []) :
    (urlBranches ds).length = ds.length
    ∧ (urlBranches ds).map UrlBranch.backendName = ds.map Deployer.name
    ∧ (urlBranches ds).map UrlBranch.urlExpr = ds.map Deployer.urlVCL
    ∧ setURLVCL ds
        = String.intercalate "\n" ((urlBranches ds).map urlBranchText) := by
  refine ⟨by simp [urlBranches], ?_, ?_, rfl⟩
  · simp [urlBranches, List.map_map]
  · simp [urlBranches, List.map_map]

/-- Witness for C6 at the concrete list `[dA, dB]`. -/
theorem url_vcl_branches_witness :
    (urlBranches [dA, dB]).map UrlBranch.backendName = ["A", "B"]
    ∧ (urlBranches [dA, dB]).map UrlBranch.urlExpr
        = ["\"/urlA\"", "\"/urlB\""] := by
  have h := url_vcl_branches [dA, dB] (by decide)
  exact ⟨h.2.1.trans (by decide), h.2.2.1.trans (by decide)⟩

/-- C7: for a gateway configured with deployers `[A, B, C]`, the generated
backend-selection chain places `A` both as its own indexed branch (index 0,
the first middle branch) and as the unconditional fallback. -/
theorem first_deployer_is_fallback_and_indexed (a b c : Deployer) :
    (middleBranches [a, b, c]).head? = some ⟨0, a.name⟩
    ∧ fallbackName [a, b, c] = some a.name :=
  ⟨rfl, rfl⟩

/-- Witness for C7 at the concrete deployers `dA`, `dB`, `dC`. -/
theorem first_deployer_is_fallback_and_indexed_witness :
    (middleBranches [dA, dB, dC]).head? = some ⟨0, "A"⟩
    ∧ fallbackName [dA, dB, dC] = some "A" :=
  first_deployer_is_fallback_and_indexed dA dB dC

/-- C3 counterexample: in the single-deployer scenario
(`basePath = "/"`, `checkpath = "/health"`), the generated health-check path
is the plain concatenation `"//health"`, not `"/health"` as the claim
states. -/
theorem gateway_scenario_counterexample :
    (healthchecks [gDeployer] "/health").map Healthcheck.path = ["//health"]
    ∧ ("//health" : String) ≠ "/health" := by decide

/-- C3 (amended): in the single-deployer scenario, `deploy()` writes exactly
one health check, named `gCheck`, whose path is `"//health"`
(`basePath + checkpath`), exactly one backend named `g`, and the generated
fallback branch selects backend `g`. -/
theorem gateway_scenario :
    (healthchecks [gDeployer] "/health").map (fun h => (h.name, h.path))
        = [("gCheck", "//health")]
    ∧ (backends [gDeployer]).map Backend.name = ["g"]
    ∧ fallbackName [gDeployer] = some "g" := by decide

/-- C4: at the single-deployer configuration, `deploy()` writes the four
snippets `backend`, `missurl`, `passurl`, `logurl`, each at priority 10 and
non-dynamic (`dynamic = 0`), but the `passurl` snippet is attached to the
`miss` phase — not the `pass` phase its name (and the spec) intend. -/
theorem deploy_snippets_passurl_miss :
    (deploySnippets [gDeployer]).map (fun l =>
        l.map (fun s => (s.name, s.priority, s.dynamic, s.type)))
      = some [("backend", 10, 0, "recv"), ("missurl", 10, 0, "miss"),
          ("passurl", 10, 0, "miss"), ("logurl", 10, 0, "fetch")] := by decide

/-- C10: `init()` is conditional and idempotent: it leaves the state
untouched unless `ready()` holds and no client exists yet; when it fires it
stores the client `Fastly(this._auth, this._service)`; `init()` twice equals
`init()` once; and once `_fastly` is set, a further `init()` leaves it
unchanged even after `withAuth`, `withServiceID`, `withDeployer` and
`withCheckpath` have changed the other fields. -/
theorem init_conditional_idempotent (g : GatewayState) :
    (¬ (ready g = true ∧ g._fastly = none) → init g = g)
    ∧ ((ready g = true ∧ g._fastly = none) →
        (init g)._fastly = some ⟨g._auth.getD "", g._service.getD ""⟩)
    ∧ init (init g) = init g
    ∧ (∀ c, g._fastly = some c → ∀ a s cp d,
        (init (withCheckpath (withDeployer (withServiceID (withAuth g a) s) d)
          cp))._fastly = some c) := by
  have hcond : ∀ g' : GatewayState, ¬ ((ready g' && g'._fastly.isNone) = true) →
      init g' = g' := by
    intro g' h
    simp only [init, if_neg h]
  refine ⟨?_, ?_, ?_, ?_⟩
  · intro h
    apply hcond
    intro hb
    rw [Bool.and_eq_true] at hb
    exact h ⟨hb.1, Option.isNone_iff_eq_none.mp hb.2⟩
  · rintro ⟨hr, hf⟩
    simp [init, hr, hf]
  · by_cases hb : (ready g && g._fastly.isNone) = true
    · have hfire : init g
          = { g with _fastly := some ⟨g._auth.getD "", g._service.getD ""⟩ } := by
        simp only [init, if_pos hb]
      rw [hfire]
      apply hcond
      simp [ready, jsTruthyOptStr]
    · rw [hcond g hb, hcond g hb]
  · intro c hc a s cp d
    have hf : (withCheckpath (withDeployer (withServiceID (withAuth g a) s) d)
        cp)._fastly = some c := hc
    rw [hcond _ (by simp [hf])]
    exact hf

/-- Witness for C10 at concrete gateway states: a freshly constructed
gateway is not ready, so `init` is the identity on it; `init` twice equals
`init` once on a ready state; `init` fires on a ready client-less state; and
a state with a stored client keeps it across setters plus `init`. -/
theorem init_conditional_idempotent_witness :
    init mkGateway = mkGateway
    ∧ (init ⟨some "sid", some "tok", none, [], "/h"⟩)._fastly
        = some ⟨"tok", "sid"⟩
    ∧ init (init ⟨some "sid", some "tok", none, [], "/h"⟩)
      = init ⟨some "sid", some "tok", none, [], "/h"⟩
    ∧ (init (withCheckpath (withDeployer (withServiceID (withAuth
        ⟨some "sid", some "tok", some ⟨"tok", "sid"⟩, [], "/h"⟩
        "tok2") "sid2") dA) "/h2"))._fastly
        = some ⟨"tok", "sid"⟩ := by
  refine ⟨?_, ?_, ?_, ?_⟩
  · exact (init_conditional_idempotent mkGateway).1 (by decide)
  · exact (init_conditional_idempotent _).2.1 ⟨by decide, rfl⟩
  · exact (init_conditional_idempotent _).2.2.1
  · exact (init_conditional_idempotent _).2.2.2 ⟨"tok", "sid"⟩ rfl "tok2"
      "sid2" "/h2" dA

end FastlyGateway
